import Mathlib

/-!
Verification development for the volcano-llm dual-path routing engine.

The Go sources under test provide the concrete helper functions
(`calculateDeterministic`, `averageDuration`, `readWorkflow`, the Temporal
retry-policy constants and the `LongRunningWorkflow` pause/resume loop);
the core pipeline (classifier, extractor, decomposer, executor, router,
hot-reload coordinator, durable-path adapter, snapshot registry) is
specified in the design document and modelled here from that specification.
Machine integers are modelled as `Int`/`Nat`; the Go values involved are
far from the int64 boundary, so wraparound is not modelled.
-/

set_option maxRecDepth 4096

namespace Volcano

/-- Embedded from src/volcano_test.go lines 88-90: the deterministic
calculation helper, `return a + b` on Go `int`. -/
def calculateDeterministic (a b : Int) : Int :=
  a + b

/-- Embedded from src/unnamed/part_000 lines 573-584: average of a slice of
`time.Duration` (int64) values; returns 0 on the empty slice, otherwise the
accumulated total divided by the length.  Go int64 division truncates
toward zero, which is `Int.tdiv` (the default `Int` division here is
Euclidean and would differ on negative totals, e.g. -7 over 2). -/
def averageDuration (durations : List Int) : Int :=
  if durations.length = 0 then
    0
  else
    Int.tdiv (durations.foldl (fun total d => total + d) 0)
      (durations.length : Int)

/-- Embedded from src/unnamed/part_000 lines 596-607: the workflow
definition structure loaded from git, with its nested configuration
flattened into fields.  The Go zero value corresponds to `default`. -/
structure WorkflowDefinition where
  name : String := ""
  version : String := ""
  taskQueue : String := ""
  maxDuration : String := ""
  maxAttempts : Int := 0
deriving DecidableEq, Repr, Inhabited

/-- Embedded from src/unnamed/part_000 lines 692-701: `readWorkflow` reads
a file and unmarshals it, discarding the unmarshal error.  The filesystem
and the JSON decoder are passed as explicit oracles: `readFile` returns
`none` exactly when `ioutil.ReadFile` errors, and `unmarshal` returns
`none` when `json.Unmarshal` fails without touching the zero-valued
destination struct. -/
def readWorkflow (readFile : String → Option String)
    (unmarshal : String → Option WorkflowDefinition)
    (path : String) : Option WorkflowDefinition :=
  match readFile path with
  | none => none
  | some data =>
    match unmarshal data with
    | some w => some w
    | none => some {}

/-- Embedded from src/unnamed/part_001 lines 73-78 (and the identical
policy in src/real-temporal-integration-test.go lines 122-127): a Temporal
retry policy.  Intervals are in milliseconds; the backoff coefficient 2.0
is the exact integer 2. -/
structure RetryPolicy where
  initialIntervalMs : Nat
  backoffCoefficient : Nat
  maximumIntervalMs : Nat
  maximumAttempts : Nat
deriving DecidableEq, Repr

/-- The concrete policy used for `start` in src/unnamed/part_001 lines
73-78: initial 1s, coefficient 2.0, maximum 10s, at most 3 attempts. -/
def startRetryPolicy : RetryPolicy :=
  { initialIntervalMs := 1000
    backoffCoefficient := 2
    maximumIntervalMs := 10000
    maximumAttempts := 3 }

/-- Backoff delay inserted before retry number `k+1` (zero-based `k`):
the initial interval grown by the coefficient and capped by the maximum
interval, as Temporal computes it from the policy in
src/unnamed/part_001. -/
def backoffDelay (p : RetryPolicy) (k : Nat) : Nat :=
  min (p.initialIntervalMs * p.backoffCoefficient ^ k) p.maximumIntervalMs

/-- Modelled from the spec: a Request is an immutable per-call value
carrying text and optional session and tenant identifiers (section 3). -/
structure Request where
  text : String
  sessionId : Option String := none
  tenantId : Option String := none
deriving DecidableEq, Repr

/-- Modelled from the spec: the kinds of typed tokens the Entity Extractor
produces (section 3). -/
inductive EntityKind
  | number
  | operator
  | date
  | identifier
deriving DecidableEq, Repr

/-- Modelled from the spec: an Entity is a typed token with its value and
its position in the token stream (section 3). -/
structure Entity where
  kind : EntityKind
  value : String
  span : Nat
deriving DecidableEq, Repr

/-- Modelled from the spec: a Classification carries the assigned domain,
a confidence and the id of the rule that matched (section 3). -/
structure Classification where
  domain : String
  confidence : Nat
  matchedRuleId : String
deriving DecidableEq, Repr

/-- Modelled from the spec: a Session holds the last result for relative
references (section 3). -/
structure Session where
  sessionId : String
  lastResult : Option Int := none
deriving DecidableEq, Repr

/-- Split a character stream at spaces, dropping empty words; `acc` holds
the characters of the current word in reverse. -/
def wordsAux : List Char → List Char → List String
  | [], acc => if acc = [] then [] else [String.mk acc.reverse]
  | c :: rest, acc =>
    if c = ' ' then
      if acc = [] then wordsAux rest []
      else String.mk acc.reverse :: wordsAux rest []
    else wordsAux rest (c :: acc)

/-- Whitespace tokenization shared by the modelled extractor and
classifier. -/
def tokenize (text : String) : List String :=
  wordsAux text.data []

/-- The four arithmetic tokens the spec-modelled extractor recognizes. -/
def arithmeticOps : List String :=
  ["+", "-", "*", "/"]

/-- Accumulate a decimal digit string into a natural number. -/
def digitsToNat : List Char → Nat → Nat
  | [], acc => acc
  | c :: rest, acc => digitsToNat rest (acc * 10 + (c.toNat - 48))

/-- Parse a non-empty all-digit token as a natural number. -/
def parseNat? (w : String) : Option Nat :=
  if w.data ≠ [] ∧ w.data.all Char.isDigit then some (digitsToNat w.data 0)
  else none

/-- Token kinding for the modelled extractor: digit strings are numbers,
the four arithmetic tokens are operators, the relative references are left
as identifiers, anything else is dropped (spec section 4.1). -/
def classifyTok (w : String) : Option EntityKind :=
  if (parseNat? w).isSome then some EntityKind.number
  else if arithmeticOps.contains w then some EntityKind.operator
  else if w = "it" ∨ w = "that" then some EntityKind.identifier
  else none

/-- Modelled from the spec: the Entity Extractor is a deterministic,
stateless map from text to an ordered entity sequence; unmatched tokens
are silently dropped (section 4.1). -/
def extract (text : String) : List Entity :=
  (tokenize text).enum.filterMap (fun p =>
    match classifyTok p.2 with
    | some k => some ⟨k, p.2, p.1⟩
    | none => none)

/-- Modelled from the spec: one ordered classifier rule, matching when its
keyword occurs as a token of the text (section 4.2). -/
structure Rule where
  id : String
  keyword : String
  domain : String
deriving DecidableEq, Repr

/-- Whether a rule matches the given text. -/
def ruleMatches (r : Rule) (text : String) : Bool :=
  (tokenize text).contains r.keyword

/-- Modelled from the spec: the Classifier applies an ordered rule list,
first match wins; no match yields the domain "unknown" (section 4.2). -/
def classify (rules : List Rule) (text : String) : Classification :=
  match rules.find? (fun r => ruleMatches r text) with
  | some r => ⟨r.domain, 100, r.id⟩
  | none => ⟨"unknown", 0, ""⟩

/-- Modelled from the spec: one step of an ExecutionPlan, a tool
invocation with its arguments (section 3). -/
structure ToolInvocation where
  toolName : String
  arguments : List Entity
deriving DecidableEq, Repr

/-- Modelled from the spec: decomposition fails when the matched domain
requires entities that are absent (section 4.3). -/
inductive DecompositionError
  | missingEntities (domain : String)
deriving DecidableEq, Repr

/-- Whether the entity list contains a relative reference token. -/
def hasReference (entities : List Entity) : Bool :=
  entities.any (fun e => e.kind = EntityKind.identifier)

/-- Modelled from the spec: the Task Decomposer turns a classification and
entities into an ordered plan; the modelled math domain requires at least
one numeric entity, and reference tokens prepend a ResolveReference step
reading the session (section 4.3).  Domains outside the modelled fast-path
catalogue fail decomposition. -/
def decompose (c : Classification) (entities : List Entity) (_session : Session) :
    Except DecompositionError (List ToolInvocation) :=
  if c.domain = "math" then
    if (entities.filter (fun e => e.kind = EntityKind.number)).isEmpty then
      Except.error (DecompositionError.missingEntities c.domain)
    else if hasReference entities then
      Except.ok [⟨"ResolveReference", []⟩, ⟨"calculator", entities⟩]
    else
      Except.ok [⟨"calculator", entities⟩]
  else
    Except.error (DecompositionError.missingEntities c.domain)

/-- Modelled from the spec: a ToolDefinition is immutable once installed
(section 3). -/
structure ToolDefinition where
  name : String
  version : String
  patterns : List String := []
  config : List (String × String) := []
deriving DecidableEq, Repr

/-- Modelled from the spec: a Snapshot is the immutable registry view for
one branch (section 3). -/
structure Snapshot where
  tools : List (String × ToolDefinition) := []
  workflows : List (String × WorkflowDefinition) := []
  config : List (String × String) := []
  revision : Nat := 0
deriving DecidableEq, Repr

/-- Name lookup in a snapshot registry. -/
def lookupTool (snap : Snapshot) (name : String) : Option ToolDefinition :=
  (snap.tools.find? (fun p => p.1 = name)).map Prod.snd

/-- Modelled from the spec: fast-path fatal errors (section 7). -/
inductive ExecError
  | toolNotFound (name : String)
  | toolExecError (name : String) (msg : String)
deriving DecidableEq, Repr

/-- Apply an arithmetic operator token; `+` agrees with the source helper
`calculateDeterministic`. -/
def applyOp (op : String) (a b : Int) : Int :=
  if op = "+" then a + b
  else if op = "-" then a - b
  else if op = "*" then a * b
  else if op = "/" then a / b
  else b

/-- Left-to-right evaluation of an extracted number/operator entity
sequence, the modelled calculator semantics. -/
def evalEntities : List Entity → Option Int → Option String → Option Int
  | [], acc, _ => acc
  | e :: rest, acc, pend =>
    match e.kind with
    | EntityKind.number =>
      match parseNat? e.value with
      | some n =>
        match acc, pend with
        | none, _ => evalEntities rest (some (Int.ofNat n)) none
        | some a, some op => evalEntities rest (some (applyOp op a (Int.ofNat n))) none
        | some _, none => evalEntities rest acc none
      | none => evalEntities rest acc pend
    | EntityKind.operator => evalEntities rest acc (some e.value)
    | _ => evalEntities rest acc pend

/-- Modelled from the spec: run one plan step against the snapshot and
session.  A tool missing from `snapshot.tools` is `ToolNotFoundError`
(section 4.4); the modelled tool catalogue has the calculator and the
ResolveReference step. -/
def runStep (snap : Snapshot) (sess : Session) (inv : ToolInvocation) :
    Except ExecError Int :=
  match lookupTool snap inv.toolName with
  | none => Except.error (ExecError.toolNotFound inv.toolName)
  | some _ =>
    if inv.toolName = "calculator" then
      match evalEntities inv.arguments sess.lastResult none with
      | some v => Except.ok v
      | none => Except.error (ExecError.toolExecError inv.toolName "no result")
    else if inv.toolName = "ResolveReference" then
      match sess.lastResult with
      | some v => Except.ok v
      | none => Except.error (ExecError.toolExecError inv.toolName "empty session")
    else
      Except.error (ExecError.toolExecError inv.toolName "unknown tool")

/-- Modelled from the spec: the Fast-Path Executor runs the plan strictly
in order, never retries, and aborts the remaining steps on the first
failure (section 4.4).  The first component of the result is the trace of
steps actually attempted, in order. -/
def executeSteps (snap : Snapshot) (sess : Session) (acc : Int) :
    List ToolInvocation → List ToolInvocation × Except ExecError Int
  | [] => ([], Except.ok acc)
  | inv :: rest =>
    match runStep snap sess inv with
    | Except.error e => ([inv], Except.error e)
    | Except.ok v =>
      let out := executeSteps snap sess v rest
      (inv :: out.1, out.2)

/-- The executor entry point: run a plan from a zero accumulator. -/
def execute (snap : Snapshot) (sess : Session) (plan : List ToolInvocation) :
    List ToolInvocation × Except ExecError Int :=
  executeSteps snap sess 0 plan

/-- Modelled from the spec: on final-step success the session records the
result; on failure the session is unchanged (section 4.4). -/
def executeWithSession (snap : Snapshot) (sess : Session)
    (plan : List ToolInvocation) :
    Session × (List ToolInvocation × Except ExecError Int) :=
  let out := execute snap sess plan
  match out.2 with
  | Except.ok v => ({ sess with lastResult := some v }, out)
  | Except.error _ => (sess, out)

/-- Modelled from the spec: the two execution routes (section 4.8). -/
inductive ExecutionPath
  | fast
  | durable
deriving DecidableEq, Repr

/-- Modelled from the spec: router configuration, the explicit durability
allow-list and the configurable step-count threshold N (section 4.8). -/
structure RouterConfig where
  durableDomains : List String
  stepThreshold : Nat
deriving DecidableEq, Repr

/-- Modelled from the spec: `route(Request, Classification)` in the strict
priority order of section 4.8: (1) domain on the durability allow-list,
(2) domain "unknown", (3) plan step count exceeding the threshold N, and
(4) otherwise Fast. -/
def route (cfg : RouterConfig) (_req : Request) (c : Classification)
    (planSteps : Nat) : ExecutionPath :=
  if cfg.durableDomains.contains c.domain then ExecutionPath.durable
  else if c.domain = "unknown" then ExecutionPath.durable
  else if cfg.stepThreshold < planSteps then ExecutionPath.durable
  else ExecutionPath.fast

/-- Modelled from the spec: the inbound response shape of section 6. -/
structure ExecuteResponse where
  success : Bool
  result : Option Int := none
  error : Option String := none
  path : String
  workflowId : Option String := none
deriving DecidableEq, Repr

/-- Deterministic workflow id assigned when a request takes the durable
route. -/
def workflowIdFor (req : Request) : String :=
  String.append "wf-" (req.sessionId.getD "anon")

/-- Modelled from the spec: the end-to-end pipeline
classify, extract, decompose, route, execute (sections 2 and 4).
An unknown or allow-listed domain goes durable; a fast-routed plan is run
by the executor and on success the session is updated. -/
def processRequest (cfg : RouterConfig) (rules : List Rule) (snap : Snapshot)
    (sess : Session) (req : Request) : ExecuteResponse × Session :=
  let c := classify rules req.text
  let ents := extract req.text
  match decompose c ents sess with
  | Except.error _ =>
    match route cfg req c 0 with
    | ExecutionPath.durable =>
      ({ success := true, path := "durable", workflowId := some (workflowIdFor req) }, sess)
    | ExecutionPath.fast =>
      ({ success := false, error := some "DecompositionError", path := "fast" }, sess)
  | Except.ok plan =>
    match route cfg req c plan.length with
    | ExecutionPath.durable =>
      ({ success := true, path := "durable", workflowId := some (workflowIdFor req) }, sess)
    | ExecutionPath.fast =>
      let out := executeWithSession snap sess plan
      match out.2.2 with
      | Except.ok v =>
        ({ success := true, result := some v, path := "fast" }, out.1)
      | Except.error _ =>
        ({ success := false, error := some "ToolError", path := "fast" }, out.1)

/-- Modelled from the spec: the ambient sources of nondeterminism a run
could in principle observe (a randomness seed and a wall clock).  The spec
requires the pipeline to use neither (sections 3 and 8). -/
structure RuntimeEnv where
  seed : Nat
  clockNanos : Nat
deriving DecidableEq, Repr

/-- Modelled from the spec: a pipeline run with the ambient environment
passed explicitly.  The spec mandates that classification, extraction,
decomposition and execution depend only on the text and the registry
snapshot, so the environment is never consulted. -/
def processRequestEnv (_env : RuntimeEnv) (cfg : RouterConfig)
    (rules : List Rule) (snap : Snapshot) (sess : Session) (req : Request) :
    ExecuteResponse × Session :=
  processRequest cfg rules snap sess req

/-- The default classifier rules of the modelled deployment: the math
domain is matched on the calculation keywords. -/
def defaultRules : List Rule :=
  [⟨"math-1", "Calculate", "math"⟩,
   ⟨"math-2", "calculate", "math"⟩,
   ⟨"math-3", "Multiply", "math"⟩]

/-- The default router configuration of the modelled deployment. -/
def defaultCfg : RouterConfig :=
  { durableDomains := ["pipeline", "analytics"], stepThreshold := 5 }

/-- The default snapshot: the built-in calculator and reference-resolution
tools are installed. -/
def defaultSnapshot : Snapshot :=
  { tools :=
      [("calculator", { name := "calculator", version := "1.0.0" }),
       ("ResolveReference", { name := "ResolveReference", version := "1.0.0" })]
    revision := 1 }

/-- A fresh session with no prior result. -/
def emptySession : Session :=
  { sessionId := "s1" }

/-- Modelled from the spec: one changed definition handed to the
Hot-Reload Coordinator: a path and the raw payload to parse and validate
(section 4.6). -/
structure Change where
  path : String
  payload : String
deriving DecidableEq, Repr

/-- Split a character stream at a separator character, keeping empty
fields; `acc` holds the characters of the current field in reverse. -/
def splitFieldsAux (sep : Char) : List Char → List Char → List String
  | [], acc => [String.mk acc.reverse]
  | c :: rest, acc =>
    if c = sep then String.mk acc.reverse :: splitFieldsAux sep rest []
    else splitFieldsAux sep rest (c :: acc)

/-- Split a string at a separator character. -/
def splitFields (sep : Char) (s : String) : List String :=
  splitFieldsAux sep s.data []

/-- Modelled from the spec: parsing plus schema validation of one changed
tool definition.  The modelled wire format is `name:version`; a payload
that does not parse or has an empty name is invalid (section 4.6). -/
def parseToolDef (payload : String) : Option ToolDefinition :=
  match splitFields ':' payload with
  | [n, v] => if n = "" then none else some { name := n, version := v }
  | _ => none

/-- Modelled from the spec: the per-reload report of section 6. -/
structure ReloadResult where
  accepted : Nat := 0
  rejected : Nat := 0
  acceptedPaths : List String := []
  rejectedPaths : List String := []
deriving DecidableEq, Repr

/-- Install one tool definition in a registry, replacing any previous
definition of the same name: a changed definition is a new object
(section 3). -/
def insertTool (tools : List (String × ToolDefinition)) (t : ToolDefinition) :
    List (String × ToolDefinition) :=
  (tools.filter (fun p => p.1 ≠ t.name)) ++ [(t.name, t)]

/-- One step of the reload fold: a valid change is installed and counted
as accepted, an invalid change is counted as rejected and skipped. -/
def reloadStep (acc : ReloadResult × Snapshot) (c : Change) :
    ReloadResult × Snapshot :=
  match parseToolDef c.payload with
  | some t =>
    ({ acc.1 with
        accepted := acc.1.accepted + 1
        acceptedPaths := acc.1.acceptedPaths ++ [c.path] },
     { acc.2 with tools := insertTool acc.2.tools t })
  | none =>
    ({ acc.1 with
        rejected := acc.1.rejected + 1
        rejectedPaths := acc.1.rejectedPaths ++ [c.path] },
     acc.2)

/-- Modelled from the spec: `reload(branch, changes)` clones the previous
snapshot, applies each valid change, rejects each invalid change
individually, and bumps the revision; partial-batch success is intentional
(section 4.6). -/
def reload (snap : Snapshot) (changes : List Change) :
    ReloadResult × Snapshot :=
  changes.foldl reloadStep ({}, { snap with revision := snap.revision + 1 })

/-- Whether a change passes validation. -/
def changeValid (c : Change) : Bool :=
  (parseToolDef c.payload).isSome

/-- Modelled from the spec: a WorkflowHandle mirrors the externally owned
execution identity (section 3). -/
structure WorkflowHandle where
  workflowId : String
  runId : String
deriving DecidableEq, Repr

/-- Modelled from the spec: how one underlying connection attempt of the
Durable-Path Adapter can end (section 4.9). -/
inductive StartFailure
  | transientConn
  | permanent (msg : String)
deriving DecidableEq, Repr

/-- Modelled from the spec: errors surfaced by the Durable-Path Adapter;
`unavailable` is DurablePathUnavailableError (section 7). -/
inductive DurableError
  | unavailable
  | startFailed (msg : String)
deriving DecidableEq, Repr

deriving instance DecidableEq for Except

/-- Outcome of a `start` call: the handle or error, how many underlying
attempts were made, and the backoff delays slept between attempts. -/
structure StartOutcome where
  handle : Except DurableError WorkflowHandle
  attemptsUsed : Nat
  delays : List Nat
deriving DecidableEq, Repr

/-- Modelled from the spec: the bounded retry loop of the adapter `start`
call (section 4.9), over an oracle `net` giving the outcome of each
underlying attempt.  Only transient connectivity failures are retried,
with a backoff delay between consecutive attempts; exhausting the attempt
budget surfaces DurablePathUnavailableError. -/
def startAttempts (net : Nat → Except StartFailure WorkflowHandle)
    (p : RetryPolicy) : Nat → Nat → StartOutcome
  | _, 0 => ⟨Except.error DurableError.unavailable, 0, []⟩
  | k, rem + 1 =>
    match net k with
    | Except.ok h => ⟨Except.ok h, 1, []⟩
    | Except.error StartFailure.transientConn =>
      if rem = 0 then ⟨Except.error DurableError.unavailable, 1, []⟩
      else
        let rest := startAttempts net p (k + 1) rem
        ⟨rest.handle, rest.attemptsUsed + 1, backoffDelay p k :: rest.delays⟩
    | Except.error (StartFailure.permanent m) =>
      ⟨Except.error (DurableError.startFailed m), 1, []⟩

/-- The adapter `start` entry point: at most `maximumAttempts` underlying
attempts starting from attempt 0. -/
def start (net : Nat → Except StartFailure WorkflowHandle)
    (p : RetryPolicy) : StartOutcome :=
  startAttempts net p 0 p.maximumAttempts

/-- Modelled from the spec: `signal` performs exactly one underlying call
and is never retried locally (section 4.9).  The second component counts
the underlying calls made. -/
def signal (net : Unit → Except StartFailure Unit) (_h : WorkflowHandle)
    (_name : String) : Except DurableError Unit × Nat :=
  (match net () with
   | Except.ok u => Except.ok u
   | Except.error _ => Except.error (DurableError.startFailed "signal"), 1)

/-- Modelled from the spec: `query` performs exactly one underlying call
and is never retried locally (section 4.9). -/
def query (net : Unit → Except StartFailure Int) (_h : WorkflowHandle)
    (_queryType : String) : Except DurableError Int × Nat :=
  (match net () with
   | Except.ok v => Except.ok v
   | Except.error _ => Except.error (DurableError.startFailed "query"), 1)

/-- Modelled from the spec: `cancel` performs exactly one underlying call
and is never retried locally (section 4.9). -/
def cancel (net : Unit → Except StartFailure Unit) (_h : WorkflowHandle) :
    Except DurableError Unit × Nat :=
  (match net () with
   | Except.ok u => Except.ok u
   | Except.error _ => Except.error (DurableError.startFailed "cancel"), 1)

/-- Modelled from the spec: the mirrored workflow status values of
section 4.9. -/
inductive WorkflowStatus
  | running
  | paused
  | completed
  | failed
  | cancelled
deriving DecidableEq, Repr

/-- Completed, Failed and Cancelled are the terminal statuses. -/
def isTerminal : WorkflowStatus → Bool
  | WorkflowStatus.completed => true
  | WorkflowStatus.failed => true
  | WorkflowStatus.cancelled => true
  | _ => false

/-- The transition relation of the section 4.9 state machine:
Running to Paused and back, Running or Paused to a terminal status, and
staying in place; nothing leaves a terminal status. -/
def allowedTransition : WorkflowStatus → WorkflowStatus → Bool
  | WorkflowStatus.running, WorkflowStatus.paused => true
  | WorkflowStatus.running, WorkflowStatus.completed => true
  | WorkflowStatus.running, WorkflowStatus.failed => true
  | WorkflowStatus.running, WorkflowStatus.cancelled => true
  | WorkflowStatus.paused, WorkflowStatus.running => true
  | WorkflowStatus.paused, WorkflowStatus.completed => true
  | WorkflowStatus.paused, WorkflowStatus.failed => true
  | WorkflowStatus.paused, WorkflowStatus.cancelled => true
  | s, t => s = t

/-- The events the mirrored workflow state reacts to, following the
pause/resume signal loop of `LongRunningWorkflow` in
src/real-temporal-integration-test.go lines 66-100: pause and resume
signals, a processing tick for one day of work, cancellation, and an
external failure. -/
inductive WorkflowEvent
  | pauseSig
  | resumeSig
  | tick
  | cancelSig
  | failSig
deriving DecidableEq, Repr

/-- The mirrored per-run state: status plus the progress counter of
`LongRunningWorkflow` (processedDays out of totalDays). -/
structure WorkflowState where
  status : WorkflowStatus
  processedDays : Nat
  totalDays : Nat
deriving DecidableEq, Repr

/-- One step of the mirrored workflow state machine, modelled from
`LongRunningWorkflow` (src/real-temporal-integration-test.go lines
66-100) and the section 4.9 machine: a paused run blocks on the resume
channel and performs no processing; a tick while running processes one
day and completes the run once all days are processed; terminal states
absorb every event. -/
def wstep (s : WorkflowState) (ev : WorkflowEvent) : WorkflowState :=
  if isTerminal s.status then s
  else
    match ev with
    | WorkflowEvent.pauseSig =>
      if s.status = WorkflowStatus.running then
        { s with status := WorkflowStatus.paused }
      else s
    | WorkflowEvent.resumeSig =>
      if s.status = WorkflowStatus.paused then
        { s with status := WorkflowStatus.running }
      else s
    | WorkflowEvent.tick =>
      if s.status = WorkflowStatus.running then
        if s.totalDays ≤ s.processedDays + 1 then
          { s with status := WorkflowStatus.completed
                   processedDays := s.processedDays + 1 }
        else
          { s with processedDays := s.processedDays + 1 }
      else s
    | WorkflowEvent.cancelSig => { s with status := WorkflowStatus.cancelled }
    | WorkflowEvent.failSig => { s with status := WorkflowStatus.failed }

/-- Modelled from the spec: the events of an interleaved trace against the
per-branch snapshot registry: an atomic installation of a whole new
snapshot for a branch by the single writer, or a read of the current
snapshot of a branch by some concurrent reader (sections 4.6 and 5). -/
inductive RegistryEvent
  | install (branch : String) (snap : Snapshot)
  | read (branch : String)
deriving Repr

/-- Modelled from the spec: run an interleaved event trace against the
per-branch current-snapshot map.  Installation replaces the pointer for
one branch in a single atomic step; each read observes the current
snapshot of its branch at that instant (section 5).  Returns the list of
read observations, in trace order, tagged with their branch. -/
def runRegistry (current : String → Snapshot) :
    List RegistryEvent → List (String × Snapshot)
  | [] => []
  | RegistryEvent.install b s :: rest =>
    runRegistry (fun b2 => if b2 = b then s else current b2) rest
  | RegistryEvent.read b :: rest =>
    (b, current b) :: runRegistry current rest

/-- The snapshots installed for a given branch over a trace. -/
def installsFor (b : String) : List RegistryEvent → List Snapshot
  | [] => []
  | RegistryEvent.install b2 s :: rest =>
    if b2 = b then s :: installsFor b rest else installsFor b rest
  | RegistryEvent.read _ :: rest => installsFor b rest

/-- Claim C1: `route(Request, Classification)` applies exactly the strict
priority order of the spec: an allow-listed domain routes Durable; else an
unknown classification routes Durable; else a plan whose step count
exceeds the threshold N routes Durable; else Fast.  At the boundary a
plan with N steps routes Fast and one with N + 1 steps routes Durable. -/
theorem route_priority (cfg : RouterConfig) (req : Request)
    (c : Classification) (n : Nat) :
    (cfg.durableDomains.contains c.domain = true →
       route cfg req c n = ExecutionPath.durable) ∧
    (cfg.durableDomains.contains c.domain = false → c.domain = "unknown" →
       route cfg req c n = ExecutionPath.durable) ∧
    (cfg.durableDomains.contains c.domain = false → c.domain ≠ "unknown" →
       cfg.stepThreshold < n → route cfg req c n = ExecutionPath.durable) ∧
    (cfg.durableDomains.contains c.domain = false → c.domain ≠ "unknown" →
       n ≤ cfg.stepThreshold → route cfg req c n = ExecutionPath.fast) ∧
    (cfg.durableDomains.contains c.domain = false → c.domain ≠ "unknown" →
       route cfg req c cfg.stepThreshold = ExecutionPath.fast) ∧
    (cfg.durableDomains.contains c.domain = false → c.domain ≠ "unknown" →
       route cfg req c (cfg.stepThreshold + 1) = ExecutionPath.durable) := by
  refine ⟨?_, ?_, ?_, ?_, ?_, ?_⟩
  · intro h1
    have hm : c.domain ∈ cfg.durableDomains := by simpa using h1
    simp [route, hm]
  · intro h1 h2
    have hm : c.domain ∉ cfg.durableDomains := by simpa using h1
    simp [route, hm, h2]
  · intro h1 h2 h3
    have hm : c.domain ∉ cfg.durableDomains := by simpa using h1
    simp [route, hm, h2, h3]
  · intro h1 h2 h3
    have hm : c.domain ∉ cfg.durableDomains := by simpa using h1
    have h4 : ¬ cfg.stepThreshold < n := by omega
    simp [route, hm, h2, h4]
  · intro h1 h2
    have hm : c.domain ∉ cfg.durableDomains := by simpa using h1
    simp [route, hm, h2]
  · intro h1 h2
    have hm : c.domain ∉ cfg.durableDomains := by simpa using h1
    simp [route, hm, h2]

/-- Witness for Claim C1: the priority order evaluated at the default
configuration (threshold 5), checking the boundary at 5 and 6 steps, the
allow-listed pipeline domain, and the unknown domain. -/
theorem route_priority_witness :
    route defaultCfg { text := "t" } ⟨"math", 100, "math-1"⟩ 5 =
      ExecutionPath.fast ∧
    route defaultCfg { text := "t" } ⟨"math", 100, "math-1"⟩ 6 =
      ExecutionPath.durable ∧
    route defaultCfg { text := "t" } ⟨"pipeline", 100, "r"⟩ 1 =
      ExecutionPath.durable ∧
    route defaultCfg { text := "t" } ⟨"unknown", 0, ""⟩ 1 =
      ExecutionPath.durable := by
  refine ⟨?_, ?_, ?_, ?_⟩
  · exact (route_priority defaultCfg { text := "t" } ⟨"math", 100, "math-1"⟩
      5).2.2.2.2.1 (by decide) (by decide)
  · exact (route_priority defaultCfg { text := "t" } ⟨"math", 100, "math-1"⟩
      6).2.2.2.2.2 (by decide) (by decide)
  · exact (route_priority defaultCfg { text := "t" } ⟨"pipeline", 100, "r"⟩
      1).1 (by decide)
  · exact (route_priority defaultCfg { text := "t" } ⟨"unknown", 0, ""⟩
      1).2.1 (by decide) (by decide)

/-- Claim C2: the request text "Calculate 42 + 58" yields a successful
response with result 100 on the fast path, and the source helper
`calculateDeterministic` returns exactly 100 on 42 and 58. -/
theorem e2e_calculate_42_plus_58 :
    (processRequest defaultCfg defaultRules defaultSnapshot emptySession
        { text := "Calculate 42 + 58" }).1 =
      { success := true, result := some 100, error := none,
        path := "fast", workflowId := none } ∧
    calculateDeterministic 42 58 = 100 :=
  ⟨by decide, by decide⟩

/-- Claim C3: for a fixed input and registry snapshot, the pipeline is a
deterministic function: its output never depends on the ambient runtime
environment (randomness seed, clock), so any two runs coincide. -/
theorem pipeline_deterministic (e1 e2 : RuntimeEnv) (cfg : RouterConfig)
    (rules : List Rule) (snap : Snapshot) (sess : Session) (req : Request) :
    processRequestEnv e1 cfg rules snap sess req =
      processRequestEnv e2 cfg rules snap sess req := rfl

/-- Claim C9: `averageDuration` is total and never divides by zero: it
returns 0 on the empty list and, on every non-empty list, the sum of the
durations divided by their count with the toward-zero truncation of Go
int64 division. -/
theorem averageDuration_total :
    averageDuration [] = 0 ∧
    ∀ ds : List Int, ds ≠ [] →
      averageDuration ds = Int.tdiv ds.sum (ds.length : Int) := by
  constructor
  · rfl
  · intro ds h
    have hlen : ¬ ds.length = 0 := by simpa using h
    have hfold : ∀ (l : List Int) (a : Int),
        l.foldl (fun total d => total + d) a = a + l.sum := by
      intro l
      induction l with
      | nil => intro a; simp
      | cons x xs ih =>
        intro a
        simp only [List.foldl_cons, List.sum_cons, ih]
        ring
    simp [averageDuration, hlen, hfold]

/-- Witness for Claim C9 at a concrete non-empty list with a negative
total, where truncation toward zero is visible: the average of -7 and 0
is -3, exactly as the Go source computes it. -/
theorem averageDuration_total_witness :
    averageDuration [-7, 0] =
      Int.tdiv ([-7, 0] : List Int).sum ((([-7, 0] : List Int).length : Int)) ∧
    averageDuration [-7, 0] = -3 := by
  have h := averageDuration_total.2 [-7, 0] (by decide)
  exact ⟨h, by rw [h]; decide⟩

/-- Claim C10: `readWorkflow` returns nil exactly when reading the file
fails, and on every readable file it returns a non-nil definition, the
parsed one when unmarshalling succeeds and the zero value when the
unmarshal error is discarded. -/
theorem readWorkflow_nil_iff (readFile : String → Option String)
    (unmarshal : String → Option WorkflowDefinition) (path : String) :
    (readWorkflow readFile unmarshal path = none ↔ readFile path = none) ∧
    (∀ data, readFile path = some data →
      readWorkflow readFile unmarshal path =
        some ((unmarshal data).getD {})) := by
  constructor
  · cases hf : readFile path with
    | none => simp [readWorkflow, hf]
    | some data =>
      cases hu : unmarshal data with
      | none => simp [readWorkflow, hf, hu]
      | some w => simp [readWorkflow, hf, hu]
  · intro data hf
    cases hu : unmarshal data with
    | none => simp [readWorkflow, hf, hu]
    | some w => simp [readWorkflow, hf, hu]

/-- Witness for Claim C10: a readable file whose content is not valid
JSON still produces a non-nil, zero-valued definition. -/
theorem readWorkflow_nil_iff_witness :
    readWorkflow (fun p => if p = "w.json" then some "garbage" else none)
      (fun _ => none) "w.json" = some {} :=
  (readWorkflow_nil_iff (fun p => if p = "w.json" then some "garbage" else none)
      (fun _ => none) "w.json").2 "garbage" (by decide)

/-- The executor trace is always the in-order prefix of the plan of its
own length: steps run strictly in plan order and each at most once. -/
theorem executeSteps_trace_take (snap : Snapshot) (sess : Session) :
    ∀ (l : List ToolInvocation) (a : Int),
      (executeSteps snap sess a l).1 =
        l.take (executeSteps snap sess a l).1.length := by
  intro l
  induction l with
  | nil => intro a; simp [executeSteps]
  | cons inv rest ih =>
    intro a
    cases h : runStep snap sess inv with
    | error e => simp [executeSteps, h]
    | ok v =>
      simp [executeSteps, h]
      exact ih v

/-- A failing execution fails at a unique position: every earlier step
succeeded, the failing step produced the returned error, and the trace
stops right after it, so no later step is attempted. -/
theorem executeSteps_error_loc (snap : Snapshot) (sess : Session) :
    ∀ (l : List ToolInvocation) (a : Int) (e : ExecError),
      (executeSteps snap sess a l).2 = Except.error e →
      ∃ k invk, l.get? k = some invk ∧
        (executeSteps snap sess a l).1 = l.take (k + 1) ∧
        runStep snap sess invk = Except.error e ∧
        ∀ j invj, j < k → l.get? j = some invj →
          ∃ v, runStep snap sess invj = Except.ok v := by
  intro l
  induction l with
  | nil => intro a e h; simp [executeSteps] at h
  | cons inv rest ih =>
    intro a e h
    cases hs : runStep snap sess inv with
    | error e0 =>
      have he : e0 = e := by simpa [executeSteps, hs] using h
      subst he
      refine ⟨0, inv, rfl, by simp [executeSteps, hs], hs, ?_⟩
      intro j invj hj
      omega
    | ok v =>
      have h2 : (executeSteps snap sess v rest).2 = Except.error e := by
        simpa [executeSteps, hs] using h
      obtain ⟨k, invk, hget, htr, herr, hpre⟩ := ih v e h2
      refine ⟨k + 1, invk, by simpa using hget, ?_, herr, ?_⟩
      · simp [executeSteps, hs, htr]
      · intro j invj hj hgj
        cases j with
        | zero =>
          have : inv = invj := by simpa using hgj
          exact ⟨v, this ▸ hs⟩
        | succ j2 =>
          exact hpre j2 invj (by omega) (by simpa using hgj)

/-- A plan returned by a successful decomposition is never empty. -/
theorem decompose_ok_nonempty (c : Classification) (ents : List Entity)
    (sess : Session) (plan : List ToolInvocation)
    (h : decompose c ents sess = Except.ok plan) : plan ≠ [] := by
  unfold decompose at h
  split_ifs at h with h1 h2 h3 <;> simp at h <;> simp [← h]

/-- A ToolNotFoundError from a step means exactly that the named tool is
absent from the snapshot registry. -/
theorem runStep_toolNotFound (snap : Snapshot) (sess : Session)
    (inv : ToolInvocation) (n : String)
    (h : runStep snap sess inv = Except.error (ExecError.toolNotFound n)) :
    lookupTool snap inv.toolName = none ∧ n = inv.toolName := by
  unfold runStep at h
  cases hl : lookupTool snap inv.toolName with
  | none =>
    rw [hl] at h
    have : inv.toolName = n := by simpa using h
    exact ⟨rfl, this.symm⟩
  | some t =>
    rw [hl] at h
    split_ifs at h with h1 h2
    · cases he : evalEntities inv.arguments sess.lastResult none <;>
        rw [he] at h <;> simp at h
    · cases hr : sess.lastResult <;> rw [hr] at h <;> simp at h
    · simp at h

/-- Claim C4: a successfully returned ExecutionPlan is non-empty; the
executor attempts its steps strictly in plan order, each at most once
(the trace is a prefix of the plan); a failing step ends the run with no
later step attempted; and a missing tool fails the request with
ToolNotFoundError naming the absent tool. -/
theorem executionPlan_invariants (snap : Snapshot) (sess : Session)
    (c : Classification) (ents : List Entity) (plan : List ToolInvocation)
    (inv : ToolInvocation) (n : String) (e : ExecError) :
    (decompose c ents sess = Except.ok plan → plan ≠ []) ∧
    ((execute snap sess plan).1 =
       plan.take (execute snap sess plan).1.length) ∧
    ((execute snap sess plan).2 = Except.error e →
       ∃ k invk, plan.get? k = some invk ∧
         (execute snap sess plan).1 = plan.take (k + 1) ∧
         runStep snap sess invk = Except.error e ∧
         ∀ j invj, j < k → plan.get? j = some invj →
           ∃ v, runStep snap sess invj = Except.ok v) ∧
    (runStep snap sess inv = Except.error (ExecError.toolNotFound n) →
       lookupTool snap inv.toolName = none ∧ n = inv.toolName) :=
  ⟨fun h => decompose_ok_nonempty c ents sess plan h,
   executeSteps_trace_take snap sess plan 0,
   fun h => executeSteps_error_loc snap sess plan 0 e h,
   fun h => runStep_toolNotFound snap sess inv n h⟩

/-- Witness for Claim C4: the concrete plan decomposed from the
calculation request is non-empty, and a step naming an uninstalled tool
is a ToolNotFoundError for exactly that name. -/
theorem executionPlan_invariants_witness :
    ([⟨"calculator", extract "Calculate 42 + 58"⟩] : List ToolInvocation) ≠ [] ∧
    (lookupTool defaultSnapshot "nope" = none ∧ "nope" = "nope") := by
  constructor
  · exact (executionPlan_invariants defaultSnapshot emptySession
      (classify defaultRules "Calculate 42 + 58") (extract "Calculate 42 + 58")
      [⟨"calculator", extract "Calculate 42 + 58"⟩] ⟨"nope", []⟩ "nope"
      (ExecError.toolNotFound "nope")).1 (by decide)
  · exact (executionPlan_invariants defaultSnapshot emptySession
      (classify defaultRules "Calculate 42 + 58") (extract "Calculate 42 + 58")
      [⟨"calculator", extract "Calculate 42 + 58"⟩] ⟨"nope", []⟩ "nope"
      (ExecError.toolNotFound "nope")).2.2.2 (by decide)

/-- Accepted and rejected counts of the reload fold partition the batch:
every change is counted exactly once, on the side its own validation
decides, independently of the other changes. -/
theorem reload_counts (changes : List Change) :
    ∀ init : ReloadResult × Snapshot,
      (changes.foldl reloadStep init).1.accepted =
        init.1.accepted + (changes.filter changeValid).length ∧
      (changes.foldl reloadStep init).1.rejected =
        init.1.rejected + (changes.filter (fun c => ! changeValid c)).length := by
  induction changes with
  | nil => intro init; simp
  | cons c rest ih =>
    intro init
    cases hp : parseToolDef c.payload with
    | some t =>
      have hv : changeValid c = true := by simp [changeValid, hp]
      obtain ⟨ha, hr⟩ := ih (reloadStep init c)
      have hacc : (reloadStep init c).1.accepted = init.1.accepted + 1 := by
        simp [reloadStep, hp]
      have hrej : (reloadStep init c).1.rejected = init.1.rejected := by
        simp [reloadStep, hp]
      constructor
      · rw [List.foldl_cons, ha, hacc, List.filter_cons]
        simp [hv]
        omega
      · rw [List.foldl_cons, hr, hrej, List.filter_cons]
        simp [hv]
    | none =>
      have hv : changeValid c = false := by simp [changeValid, hp]
      obtain ⟨ha, hr⟩ := ih (reloadStep init c)
      have hacc : (reloadStep init c).1.accepted = init.1.accepted := by
        simp [reloadStep, hp]
      have hrej : (reloadStep init c).1.rejected = init.1.rejected + 1 := by
        simp [reloadStep, hp]
      constructor
      · rw [List.foldl_cons, ha, hacc, List.filter_cons]
        simp [hv]
      · rw [List.foldl_cons, hr, hrej, List.filter_cons]
        simp [hv]
        omega

/-- Presence in a snapshot registry reduces to presence in the underlying
association list. -/
theorem lookupTool_isSome (snap : Snapshot) (name : String) :
    (lookupTool snap name).isSome =
      (snap.tools.find? (fun p => p.1 = name)).isSome := by
  unfold lookupTool
  cases snap.tools.find? (fun p => p.1 = name) <;> simp

/-- Installing a tool makes its name present. -/
theorem find_insert_self (tools : List (String × ToolDefinition))
    (t : ToolDefinition) :
    ((insertTool tools t).find? (fun p => p.1 = t.name)).isSome = true := by
  rw [List.find?_isSome]
  exact ⟨(t.name, t), by simp [insertTool], by simp⟩

/-- Installing a tool never removes any present name. -/
theorem find_insert_mono (tools : List (String × ToolDefinition))
    (t : ToolDefinition) (name : String)
    (h : (tools.find? (fun p => p.1 = name)).isSome = true) :
    ((insertTool tools t).find? (fun p => p.1 = name)).isSome = true := by
  by_cases hn : name = t.name
  · subst hn
    exact find_insert_self tools t
  · rw [List.find?_isSome] at h ⊢
    obtain ⟨x, hx, hpx⟩ := h
    have hx1 : x.1 = name := by simpa using hpx
    refine ⟨x, ?_, hpx⟩
    unfold insertTool
    rw [List.mem_append]
    left
    rw [List.mem_filter]
    refine ⟨hx, ?_⟩
    simp [hx1]
    intro hh
    exact hn hh

/-- One reload step never removes a present tool name. -/
theorem reloadStep_preserves (acc : ReloadResult × Snapshot) (c : Change)
    (name : String)
    (h : (lookupTool acc.2 name).isSome = true) :
    (lookupTool (reloadStep acc c).2 name).isSome = true := by
  rw [lookupTool_isSome] at h ⊢
  unfold reloadStep
  cases hp : parseToolDef c.payload with
  | some t =>
    simp only []
    exact find_insert_mono acc.2.tools t name h
  | none => simpa using h

/-- The reload fold never removes a present tool name. -/
theorem reload_foldl_preserves (changes : List Change) :
    ∀ (init : ReloadResult × Snapshot) (name : String),
      (lookupTool init.2 name).isSome = true →
      (lookupTool (changes.foldl reloadStep init).2 name).isSome = true := by
  induction changes with
  | nil => intro init name h; simpa using h
  | cons c rest ih =>
    intro init name h
    rw [List.foldl_cons]
    exact ih (reloadStep init c) name (reloadStep_preserves init c name h)

/-- Every valid change of the batch ends up installed by the reload fold,
no matter what the other changes in the batch do. -/
theorem reload_foldl_installs (changes : List Change) :
    ∀ (init : ReloadResult × Snapshot),
      ∀ c ∈ changes, ∀ t : ToolDefinition, parseToolDef c.payload = some t →
        (lookupTool (changes.foldl reloadStep init).2 t.name).isSome = true := by
  induction changes with
  | nil =>
    intro init c hc
    simp at hc
  | cons c0 rest ih =>
    intro init c hc t hp
    rw [List.foldl_cons]
    rcases List.mem_cons.mp hc with hceq | hcrest
    · subst hceq
      apply reload_foldl_preserves rest (reloadStep init c) t.name
      rw [lookupTool_isSome]
      unfold reloadStep
      rw [hp]
      simp only []
      exact find_insert_self init.2.tools t
    · exact ih (reloadStep init c0) c hcrest t hp

/-- Claim C5: reload validates each change of a batch individually: the
accepted and rejected counts partition the batch by per-change validity,
every valid change is installed regardless of invalid neighbours, and the
concrete 3-change batch with 1 invalid entry installs the other 2 and
reports exactly 1 rejection. -/
theorem reload_partial_batch (snap : Snapshot) (changes : List Change) :
    ((reload snap changes).1.accepted =
       (changes.filter changeValid).length) ∧
    ((reload snap changes).1.rejected =
       (changes.filter (fun c => ! changeValid c)).length) ∧
    (∀ c ∈ changes, ∀ t : ToolDefinition, parseToolDef c.payload = some t →
       (lookupTool (reload snap changes).2 t.name).isSome = true) ∧
    ((reload defaultSnapshot
        [⟨"tools/a.json", "alpha:1"⟩, ⟨"tools/bad.json", "oops"⟩,
         ⟨"tools/b.json", "beta:2"⟩]).1.accepted = 2 ∧
     (reload defaultSnapshot
        [⟨"tools/a.json", "alpha:1"⟩, ⟨"tools/bad.json", "oops"⟩,
         ⟨"tools/b.json", "beta:2"⟩]).1.rejected = 1) := by
  refine ⟨?_, ?_, ?_, by decide, by decide⟩
  · have h := (reload_counts changes
      ({}, { snap with revision := snap.revision + 1 })).1
    simpa [reload] using h
  · have h := (reload_counts changes
      ({}, { snap with revision := snap.revision + 1 })).2
    simpa [reload] using h
  · intro c hc t hp
    exact reload_foldl_installs changes
      ({}, { snap with revision := snap.revision + 1 }) c hc t hp

/-- Witness for Claim C5: in the 3-change batch with one invalid entry,
the first valid change is installed in the resulting snapshot. -/
theorem reload_partial_batch_witness :
    (lookupTool (reload defaultSnapshot
        [⟨"tools/a.json", "alpha:1"⟩, ⟨"tools/bad.json", "oops"⟩,
         ⟨"tools/b.json", "beta:2"⟩]).2 "alpha").isSome = true :=
  (reload_partial_batch defaultSnapshot
      [⟨"tools/a.json", "alpha:1"⟩, ⟨"tools/bad.json", "oops"⟩,
       ⟨"tools/b.json", "beta:2"⟩]).2.2.1
    ⟨"tools/a.json", "alpha:1"⟩ (by decide)
    { name := "alpha", version := "1" } (by decide)

/-- The retry loop never exceeds its attempt budget. -/
theorem startAttempts_bound (net : Nat → Except StartFailure WorkflowHandle)
    (p : RetryPolicy) :
    ∀ (rem k : Nat), (startAttempts net p k rem).attemptsUsed ≤ rem := by
  intro rem
  induction rem with
  | zero => intro k; simp [startAttempts]
  | succ r ih =>
    intro k
    cases hn : net k with
    | ok hdl => simp [startAttempts, hn]
    | error f =>
      cases f with
      | transientConn =>
        by_cases hr : r = 0
        · subst hr
          simp [startAttempts, hn]
        · have hk := ih (k + 1)
          simp [startAttempts, hn, hr]
          omega
      | permanent m =>
        simp [startAttempts, hn]

/-- If every underlying attempt fails transiently, the retry loop ends in
DurablePathUnavailableError rather than fabricating a handle. -/
theorem startAttempts_exhaust (net : Nat → Except StartFailure WorkflowHandle)
    (p : RetryPolicy)
    (hall : ∀ j, net j = Except.error StartFailure.transientConn) :
    ∀ (rem k : Nat),
      (startAttempts net p k rem).handle =
        Except.error DurableError.unavailable := by
  intro rem
  induction rem with
  | zero => intro k; simp [startAttempts]
  | succ r ih =>
    intro k
    by_cases hr : r = 0
    · subst hr
      simp [startAttempts, hall k]
    · simp [startAttempts, hall k, hr]
      exact ih (k + 1)

/-- Every backoff delay slept by the retry loop is capped by the maximum
interval of the policy. -/
theorem startAttempts_delays_bound
    (net : Nat → Except StartFailure WorkflowHandle) (p : RetryPolicy) :
    ∀ (rem k : Nat), ∀ d ∈ (startAttempts net p k rem).delays,
      d ≤ p.maximumIntervalMs := by
  intro rem
  induction rem with
  | zero => intro k d hd; simp [startAttempts] at hd
  | succ r ih =>
    intro k d hd
    cases hn : net k with
    | ok hdl => simp [startAttempts, hn] at hd
    | error f =>
      cases f with
      | transientConn =>
        by_cases hr : r = 0
        · subst hr
          simp [startAttempts, hn] at hd
        · simp [startAttempts, hn, hr] at hd
          rcases hd with hd | hd
          · subst hd
            unfold backoffDelay
            exact min_le_right _ _
          · exact ih (k + 1) d hd
      | permanent m => simp [startAttempts, hn] at hd

/-- A handle returned by the retry loop was produced by some underlying
attempt: the adapter never fabricates a result. -/
theorem startAttempts_ok_src
    (net : Nat → Except StartFailure WorkflowHandle) (p : RetryPolicy) :
    ∀ (rem k : Nat) (hdl : WorkflowHandle),
      (startAttempts net p k rem).handle = Except.ok hdl →
      ∃ j, net j = Except.ok hdl := by
  intro rem
  induction rem with
  | zero => intro k hdl h; simp [startAttempts] at h
  | succ r ih =>
    intro k hdl h
    cases hn : net k with
    | ok h2 =>
      have he : h2 = hdl := by simpa [startAttempts, hn] using h
      exact ⟨k, by rw [hn, he]⟩
    | error f =>
      cases f with
      | transientConn =>
        by_cases hr : r = 0
        · subst hr
          simp [startAttempts, hn] at h
        · exact ih (k + 1) hdl (by simpa [startAttempts, hn, hr] using h)
      | permanent m => simp [startAttempts, hn] at h

/-- A non-transient failure is never retried: the loop stops after the
one attempt that produced it. -/
theorem startAttempts_permanent
    (net : Nat → Except StartFailure WorkflowHandle) (p : RetryPolicy)
    (m : String) :
    ∀ (rem k : Nat), net k = Except.error (StartFailure.permanent m) →
      (startAttempts net p k rem).attemptsUsed ≤ 1 := by
  intro rem k hn
  cases rem with
  | zero => simp [startAttempts]
  | succ r => simp [startAttempts, hn]

/-- Claim C6: of the Durable-Path Adapter operations only start is
retried locally: its attempts are bounded by the policy maximum, the
backoff delays between attempts are capped by the policy interval, a
non-transient failure stops after a single attempt, exhausting the budget
on transient failures surfaces DurablePathUnavailableError, a returned
handle always comes from a real underlying attempt, and signal, query and
cancel each perform exactly one underlying call. -/
theorem start_retry_policy (p : RetryPolicy)
    (net : Nat → Except StartFailure WorkflowHandle)
    (netU : Unit → Except StartFailure Unit)
    (netI : Unit → Except StartFailure Int)
    (h : WorkflowHandle) (nm qt m : String) :
    ((start net p).attemptsUsed ≤ p.maximumAttempts) ∧
    ((∀ j, net j = Except.error StartFailure.transientConn) →
       (start net p).handle = Except.error DurableError.unavailable) ∧
    (net 0 = Except.error (StartFailure.permanent m) →
       (start net p).attemptsUsed ≤ 1) ∧
    (∀ d ∈ (start net p).delays, d ≤ p.maximumIntervalMs) ∧
    (∀ hdl, (start net p).handle = Except.ok hdl →
       ∃ j, net j = Except.ok hdl) ∧
    ((signal netU h nm).2 = 1 ∧ (query netI h qt).2 = 1 ∧
       (cancel netU h).2 = 1) :=
  ⟨startAttempts_bound net p p.maximumAttempts 0,
   fun hall => startAttempts_exhaust net p hall p.maximumAttempts 0,
   fun hp => startAttempts_permanent net p m p.maximumAttempts 0 hp,
   fun d hd => startAttempts_delays_bound net p p.maximumAttempts 0 d hd,
   fun hdl hh => startAttempts_ok_src net p p.maximumAttempts 0 hdl hh,
   rfl, rfl, rfl⟩

/-- Witness for Claim C6: a network that always fails transiently drives
the source retry policy (3 attempts) into DurablePathUnavailableError. -/
theorem start_retry_policy_witness :
    (start (fun _ => Except.error StartFailure.transientConn)
        startRetryPolicy).handle = Except.error DurableError.unavailable :=
  (start_retry_policy startRetryPolicy
      (fun _ => Except.error StartFailure.transientConn)
      (fun _ => Except.ok ()) (fun _ => Except.ok 0)
      ⟨"w", "r"⟩ "pause" "progress" "m").2.1 (fun _ => rfl)

/-- Claim C7: every status transition of the mirrored workflow state
machine follows Running to Paused and back and then to a terminal state:
a paused workflow performs no processing on any event, the only ways out
of Paused are back to Running or to a terminal state, and no event ever
leaves a terminal state. -/
theorem workflow_state_machine (s : WorkflowState) (ev : WorkflowEvent) :
    (allowedTransition s.status (wstep s ev).status = true) ∧
    (s.status = WorkflowStatus.paused →
       (wstep s ev).processedDays = s.processedDays) ∧
    (s.status = WorkflowStatus.paused →
       ((wstep s ev).status = WorkflowStatus.paused ∨
        (wstep s ev).status = WorkflowStatus.running ∨
        isTerminal (wstep s ev).status = true)) ∧
    (isTerminal s.status = true → wstep s ev = s) := by
  obtain ⟨st, pd, td⟩ := s
  cases st <;> cases ev <;>
    simp only [wstep, isTerminal] <;>
    split_ifs <;>
    simp [allowedTransition, isTerminal]

/-- Witness for Claim C7: a paused run ignores a processing tick, and a
completed run absorbs every event. -/
theorem workflow_state_machine_witness :
    (wstep ⟨WorkflowStatus.paused, 1, 5⟩ WorkflowEvent.tick).processedDays
      = 1 ∧
    wstep ⟨WorkflowStatus.completed, 5, 5⟩ WorkflowEvent.tick =
      ⟨WorkflowStatus.completed, 5, 5⟩ := by
  constructor
  · exact (workflow_state_machine ⟨WorkflowStatus.paused, 1, 5⟩
      WorkflowEvent.tick).2.1 rfl
  · exact (workflow_state_machine ⟨WorkflowStatus.completed, 5, 5⟩
      WorkflowEvent.tick).2.2.2 (by decide)

/-- Every observation of an interleaved registry trace is either the
initial snapshot of its branch or one that was atomically installed for
that branch during the trace. -/
theorem runRegistry_obs (events : List RegistryEvent) :
    ∀ (current : String → Snapshot) (b : String) (s : Snapshot),
      (b, s) ∈ runRegistry current events →
      s = current b ∨ s ∈ installsFor b events := by
  induction events with
  | nil => intro current b s h; simp [runRegistry] at h
  | cons ev rest ih =>
    intro current b s h
    cases ev with
    | install b2 s2 =>
      have h2 : (b, s) ∈
          runRegistry (fun x => if x = b2 then s2 else current x) rest := by
        simpa [runRegistry] using h
      rcases ih _ b s h2 with hc | hi
      · by_cases hb : b = b2
        · subst hb
          simp at hc
          right
          simp [installsFor, hc]
        · simp [hb] at hc
          left
          exact hc
      · right
        by_cases hb : b2 = b <;> simp [installsFor, hb, hi]
    | read b2 =>
      simp [runRegistry] at h
      rcases h with ⟨hb, hs⟩ | h
      · subst hb
        left
        exact hs
      · rcases ih current b s h with hc | hi
        · left; exact hc
        · right; simpa [installsFor] using hi

/-- Claim C8: the registry state is one current snapshot per branch and
installation is a single atomic step, so every read running interleaved
with a reload observes a complete snapshot: with exactly one installed
snapshot `new` over a trace starting from `old`, every read of that
branch sees fully old or fully new, never a mixed state. -/
theorem snapshot_atomicity (current : String → Snapshot)
    (events : List RegistryEvent) (b : String) (old new : Snapshot) :
    (∀ s, (b, s) ∈ runRegistry current events →
       s = current b ∨ s ∈ installsFor b events) ∧
    (current b = old → installsFor b events = [new] →
       ∀ s, (b, s) ∈ runRegistry current events → s = old ∨ s = new) := by
  constructor
  · intro s h
    exact runRegistry_obs events current b s h
  · intro hold hin s h
    rcases runRegistry_obs events current b s h with hc | hi
    · left
      rw [hc, hold]
    · right
      rw [hin] at hi
      simpa using hi

/-- Witness for Claim C8: in a trace that reads, atomically installs a
revision-2 snapshot, and reads again, the observed revision-2 snapshot is
one of the two complete snapshots. -/
theorem snapshot_atomicity_witness :
    ({ defaultSnapshot with revision := 2 } : Snapshot) = defaultSnapshot ∨
      ({ defaultSnapshot with revision := 2 } : Snapshot) =
        { defaultSnapshot with revision := 2 } :=
  (snapshot_atomicity (fun _ => defaultSnapshot)
      [RegistryEvent.read "main",
       RegistryEvent.install "main" { defaultSnapshot with revision := 2 },
       RegistryEvent.read "main"] "main" defaultSnapshot
      { defaultSnapshot with revision := 2 }).2 rfl (by decide)
    { defaultSnapshot with revision := 2 } (by decide)

end Volcano
